import Mathlib

/-!
# ggiraph `a_color`: a verification development

Shallow embedding of `src/a_color.cpp` (class `a_color`: constructor, `color`,
`opacity`, `is_visible`, `is_transparent`) and proofs of its documented
properties.

Modelling conventions

* A C `int` is an `Int` in the range `-2^31 ≤ c < 2^31` (`isInt32`).
* Bitwise `&` on `int` is computed on the two's-complement bit patterns
  (`int_and`), `>>` on `int` is the arithmetic (sign-extending) shift (`int_shr`).
* `sprintf` into the 100-byte buffer is fallible: `none` stands for a write past
  the end of the buffer.
* `opacity` writes through a default-constructed `std::stringstream`, which takes
  the global C++ locale; the decimal point of that locale is an input of the
  model.
-/

namespace AColor

/-! ## Machine integers -/

/-- The values of a C `int` (32 bits, two's complement). -/
def isInt32 (c : Int) : Prop := -2147483648 ≤ c ∧ c < 2147483648

instance (c : Int) : Decidable (isInt32 c) := by unfold isInt32; infer_instance

/-- Bit pattern of an `int`, as an unsigned 32-bit number. -/
def toU32 (x : Int) : Nat := (x % 4294967296).toNat

/-- Signed reading of a 32-bit pattern. -/
def ofU32 (u : Nat) : Int :=
  if u % 4294967296 < 2147483648 then (u % 4294967296 : Nat) else (u % 4294967296 : Nat) - 4294967296

/-- C `a & b` on `int`. -/
def int_and (a b : Int) : Int := ofU32 (Nat.land (toU32 a) (toU32 b))

/-- C `a >> k` on `int`: arithmetic shift, the sign bit is replicated. -/
def int_shr (a : Int) (k : Nat) : Int := a >>> k

/-- Modelled from the spec: the constant `NA_INTEGER` of the R headers (not under
`src/`), the reserved "not available" value of an R integer, `INT_MIN`. -/
def NA_INTEGER : Int := -2147483648

/-- Modelled from the spec: the macro `R_RED` of `R_ext/GraphicsEngine.h` (not under
`src/`), `((col) & 255)`. -/
def R_RED (col : Int) : Int := int_and col 255

/-- Modelled from the spec: the macro `R_GREEN` of `R_ext/GraphicsEngine.h` (not
under `src/`), `(((col) >> 8) & 255)`. -/
def R_GREEN (col : Int) : Int := int_and (int_shr col 8) 255

/-- Modelled from the spec: the macro `R_BLUE` of `R_ext/GraphicsEngine.h` (not
under `src/`), `(((col) >> 16) & 255)`. -/
def R_BLUE (col : Int) : Int := int_and (int_shr col 16) 255

/-- Modelled from the spec: the macro `R_ALPHA` of `R_ext/GraphicsEngine.h` (not
under `src/`), `(((col) >> 24) & 255)`. -/
def R_ALPHA (col : Int) : Int := int_and (int_shr col 24) 255

/-- Modelled from the spec: the macro `R_RGBA` of `R_ext/GraphicsEngine.h` (not under
`src/`), `((r)|((g)<<8)|((b)<<16)|((a)<<24))`, read as a 32-bit signed integer. -/
def R_RGBA (r g b a : Nat) : Int :=
  ofU32 (r ||| (g <<< 8) ||| (b <<< 16) ||| (a <<< 24))

/-! ## `sprintf` with the conversion `%02X` -/

/-- Upper-case hexadecimal digit of a value below 16, as `%X` prints it. -/
def upperDigit (d : Nat) : Char :=
  if d < 10 then Char.ofNat (48 + d) else Char.ofNat (55 + d)

/-- Digits of `n` in base 16, most significant first, prepended to `acc`. -/
def hexDigitsAux : Nat → Nat → List Char → List Char
  | 0, _, acc => acc
  | fuel + 1, n, acc =>
    if n < 16 then upperDigit n :: acc
    else hexDigitsAux fuel (n / 16) (upperDigit (n % 16) :: acc)

/-- The conversion `%X` of an `unsigned int` (at most 8 digits). -/
def fmtX (u : Nat) : List Char := hexDigitsAux 8 u []

/-- The conversion `%02X` applied to an `int` argument: the argument is read as
`unsigned int`, printed in upper-case hexadecimal, and padded on the left with
`0` to a minimum field width of 2. -/
def fmt02X (v : Int) : List Char :=
  let ds := fmtX (toU32 v)
  List.replicate (2 - ds.length) '0' ++ ds

/-- Size of `buf` in `a_color::color`. -/
def bufSize : Nat := 100

/-- `sprintf( buf, "#%02X%02X%02X", r, g, b )` followed by `std::string str = buf`:
the characters written, or `none` when they and the terminating NUL do not fit
in `buf`. -/
def sprintf_color (r g b : Int) : Option String :=
  let out := '#' :: (fmt02X r ++ fmt02X g ++ fmt02X b)
  if out.length + 1 ≤ bufSize then some (String.mk out) else none

/-! ## Binary64 division and the stream insertion of a `double`

`this->alpha / 255.0` converts the `int` to `double` (exactly, an `int` has at
most 31 significant bits) and divides in IEEE 754 binary64 arithmetic, rounding
to nearest, ties to even.  `os << x` with `os.precision(2)` and no `floatfield`
flag is the conversion `%.2g` of `printf`; both are computed here on exact
integers.

The stream `os` is default-constructed, so it is imbued with the global C++
locale of the process, and the decimal point written is the `decimal_point()` of
that locale: `.` in the classic locale, `,` in many others.  It is an input `dp`
of the model.  Digit grouping of the locale separates groups of digits of the
integer part; it never shows for an alpha in 0..255, whose ratio has a one-digit
integer part, and is not modelled. -/

/-- A finite binary64 value `(-1)^neg * m * 2^e`. -/
structure Dbl where
  neg : Bool
  m : Nat
  e : Int
deriving DecidableEq, Repr

/-- Numerator of the magnitude `m * 2^e` written as a fraction of naturals. -/
def Dbl.num (d : Dbl) : Nat := if 0 ≤ d.e then d.m * 2 ^ d.e.toNat else d.m

/-- Denominator of the magnitude `m * 2^e` written as a fraction of naturals. -/
def Dbl.den (d : Dbl) : Nat := if 0 ≤ d.e then 1 else 2 ^ (-d.e).toNat

/-- The rational number a binary64 value stands for. -/
def Dbl.toRat (d : Dbl) : ℚ := (if d.neg then -1 else 1) * ((d.num : ℚ) / (d.den : ℚ))

/-- The integer nearest to `num / den`, ties to the even one. -/
def roundHalfEven (num den : Nat) : Nat :=
  let q := num / den
  let r := num % den
  if 2 * r < den then q
  else if den < 2 * r then q + 1
  else if q % 2 = 0 then q else q + 1

/-- Floor of the binary logarithm (0 for 0 and 1). -/
def ilog2 : Nat → Nat → Nat
  | 0, _ => 0
  | fuel + 1, n => if n < 2 then 0 else ilog2 fuel (n / 2) + 1

/-- The fraction `n / (d * 2^e)` as a pair of naturals. -/
def scaleBy2 (n d : Nat) (e : Int) : Nat × Nat :=
  if 0 ≤ e then (n, d * 2 ^ e.toNat) else (n * 2 ^ (-e).toNat, d)

/-- The quotient `n / d` of two integers below `2^64` rounded to 53 significant
bits, ties to even: the pair `(m, e)` stands for `m * 2^e`.  The exponent `e` is
chosen so that `2^52 ≤ n / (d * 2^e) < 2^53` before rounding. -/
def divRound53 (n d : Nat) : Nat × Int :=
  if n = 0 then (0, 0)
  else
    let e0 : Int := (ilog2 64 n : Int) - (ilog2 64 d : Int) - 53
    let e := if (scaleBy2 n d e0).1 / (scaleBy2 n d e0).2 < 2 ^ 53 then e0 else e0 + 1
    (roundHalfEven (scaleBy2 n d e).1 (scaleBy2 n d e).2, e)

/-- The C expression `x / d.0` for an `int` `x` and a positive integer constant `d`. -/
def int_div_double (x : Int) (d : Nat) : Dbl :=
  { neg := decide (x < 0), m := (divRound53 x.natAbs d).1, e := (divRound53 x.natAbs d).2 }

/-- Floor of the decimal logarithm of `q ≥ 1`. -/
def ilog10 : Nat → Nat → Nat
  | 0, _ => 0
  | fuel + 1, q => if q < 10 then 0 else ilog10 fuel (q / 10) + 1

/-- Least `k` with `den ≤ num * 10^k`. -/
def negLog10 : Nat → Nat → Nat → Nat
  | 0, _, _ => 0
  | fuel + 1, num, den => if den ≤ num then 0 else negLog10 fuel (num * 10) den + 1

/-- Decimal exponent of the positive fraction `num / den`: the `X` with
`10^X ≤ num / den < 10^(X+1)`. -/
def decExp (num den : Nat) : Int :=
  if den ≤ num then (ilog10 400 (num / den) : Int) else - (negLog10 400 num den : Int)

/-- The fraction `n * 10^k / d` as a pair of naturals. -/
def scaleBy10 (n d : Nat) (k : Int) : Nat × Nat :=
  if 0 ≤ k then (n * 10 ^ k.toNat, d) else (n, d * 10 ^ (-k).toNat)

/-- Style `e` conversion with precision 1 of the positive fraction `num / den`:
the two significant digits `s` (from 10 to 99) and the exponent `X`, the value
printed being `s * 10^(X-1)`. -/
def round2sig (num den : Nat) : Nat × Int :=
  let x := decExp num den
  let s := roundHalfEven (scaleBy10 num den (1 - x)).1 (scaleBy10 num den (1 - x)).2
  if s = 100 then (10, x + 1) else (s, x)

/-- The character of the last decimal digit of `d`. -/
def digitChar (d : Nat) : Char := Char.ofNat (48 + d % 10)

/-- Removal of the trailing zeros of a fractional part. -/
def stripZeros (frac : List Char) : List Char :=
  (frac.reverse.dropWhile (fun c => c == '0')).reverse

/-- Integer part and fractional part joined around the decimal point `dp` of the
locale, as `%g` does without the `#` flag: trailing zeros go, and so does the
decimal point when no digit follows it. -/
def withFraction (dp : Char) (ip frac : List Char) : List Char :=
  match stripZeros frac with
  | [] => ip
  | fs => ip ++ dp :: fs

/-- The exponent digits of style `e`: at least two. -/
def expDigits (x : Nat) : List Char :=
  if x < 100 then [digitChar (x / 10), digitChar x]
  else [digitChar (x / 100), digitChar (x / 10), digitChar x]

/-- The digits of the conversion `%.2g` of the magnitude `num / den`: the integer
part, the fractional part at its full precision, and the exponent suffix.  With
`X` the exponent of the style `e` conversion, style `e` is used when `X < -4` or
`2 ≤ X`, and style `f` with precision `1 - X` otherwise (zero has `X = 0`). -/
def fmtG2parts (num den : Nat) : List Char × List Char × List Char :=
  if num = 0 then (['0'], ['0'], [])
  else
    let sx := round2sig num den
    let d1 := digitChar (sx.1 / 10)
    let d2 := digitChar sx.1
    if sx.2 < -4 ∨ 2 ≤ sx.2 then
      ([d1], [d2], 'e' :: (if sx.2 < 0 then '-' else '+') :: expDigits sx.2.natAbs)
    else if sx.2 = 1 then ([d1, d2], [], [])
    else if sx.2 = 0 then ([d1], [d2], [])
    else (['0'], List.replicate (sx.2.natAbs - 1) '0' ++ [d1, d2], [])

/-- The conversion `%.2g` of the magnitude `num / den` with the decimal point `dp`. -/
def fmtG2body (dp : Char) (num den : Nat) : List Char :=
  withFraction dp (fmtG2parts num den).1 (fmtG2parts num den).2.1 ++ (fmtG2parts num den).2.2

/-- The text `os << x` appends for a `double` `x` after `os.precision(2)`, on a
stream whose locale has the decimal point `dp`. -/
def fmtG2 (dp : Char) (d : Dbl) : String :=
  String.mk ((if d.neg then ['-'] else []) ++ fmtG2body dp d.num d.den)

/-! ## The class `a_color` -/

/-- The two data members of `a_color`. -/
structure a_color where
  col : Int
  alpha : Int
deriving DecidableEq, Repr

/-- The constructor `a_color::a_color (int col)`: `col(col)` and then
`this->alpha = R_ALPHA(col)`. -/
def a_color.new (col : Int) : a_color :=
  { col := col, alpha := R_ALPHA col }

/-- The method `a_color::color`. -/
def a_color.color (self : a_color) : Option String :=
  sprintf_color (R_RED self.col) (R_GREEN self.col) (R_BLUE self.col)

/-- The method `a_color::opacity`.  Its local `std::stringstream os` is imbued with
the global C++ locale; `dp` is the decimal point of that locale at the time of
the call. -/
def a_color.opacity (self : a_color) (dp : Char) : String :=
  fmtG2 dp (int_div_double self.alpha 255)

/-- The method `a_color::is_visible`; the C `int` result of `&&` is 1 or 0. -/
def a_color.is_visible (self : a_color) : Int :=
  if self.col ≠ NA_INTEGER ∧ self.alpha ≠ 0 then 1 else 0

/-- The method `a_color::is_transparent`; the C `int` result of `==` is 1 or 0. -/
def a_color.is_transparent (self : a_color) : Int :=
  if R_ALPHA self.col = 0 then 1 else 0

/-! ## Method calls on an object

None of the four method bodies assigns to `this->col` or `this->alpha` (`color`
writes the local `buf` and `str`, `opacity` the local `os`), so every call hands
the object back as it found it.  A call is made under the global locale of the
moment, of which the decimal point `dp` is what a method can observe. -/

/-- The four public methods. -/
inductive Call where
  | color
  | opacity
  | is_visible
  | is_transparent
deriving DecidableEq, Repr

/-- What a method returns: a `std::string` (`none` when `sprintf` overran its
buffer) or an `int`. -/
inductive Result where
  | str (s : Option String)
  | int (v : Int)
deriving DecidableEq, Repr

/-- One method call on an object, under a locale with decimal point `dp`: the
value returned and the object afterwards. -/
def a_color.call (self : a_color) (dp : Char) : Call → Result × a_color
  | Call.color => (Result.str self.color, self)
  | Call.opacity => (Result.str (some (self.opacity dp)), self)
  | Call.is_visible => (Result.int self.is_visible, self)
  | Call.is_transparent => (Result.int self.is_transparent, self)

/-- A sequence of method calls on an object, each paired with the decimal point of
the global locale at the time of the call: the values returned, in order, and the
object afterwards. -/
def a_color.run (self : a_color) : List (Char × Call) → List Result × a_color
  | [] => ([], self)
  | k :: ks =>
    let r := self.call k.1 k.2
    let rest := a_color.run r.2 ks
    (r.1 :: rest.1, rest.2)

/-! ## Specification-side definitions -/

/-- The sixteen upper-case hexadecimal digits. -/
def specHexDigit : Nat → Char
  | 0 => '0' | 1 => '1' | 2 => '2' | 3 => '3' | 4 => '4' | 5 => '5' | 6 => '6' | 7 => '7'
  | 8 => '8' | 9 => '9' | 10 => 'A' | 11 => 'B' | 12 => 'C' | 13 => 'D' | 14 => 'E'
  | _ => 'F'

/-- Two-digit, zero-padded, upper-case hexadecimal encoding of a channel value. -/
def specHex2 (n : Int) : List Char :=
  [specHexDigit (n.toNat / 16), specHexDigit (n.toNat % 16)]

/-- The text `#RRGGBB` of three channel values. -/
def specHexColor (r g b : Int) : String :=
  String.mk ('#' :: (specHex2 r ++ specHex2 g ++ specHex2 b))

/-- Number of decimal places `k` that two significant digits of `a / 255` need:
the least `k` with `10 ≤ a * 10^k / 255`. -/
def specPlaces : Nat → Nat → Nat
  | 0, _ => 0
  | fuel + 1, a => if 2550 ≤ a then 0 else specPlaces fuel (a * 10) + 1

/-- The exact ratio `a / 255` rounded to two significant digits: the pair `(s, k)`
stands for the decimal `s / 10^k`, where `s` is the integer nearest to
`a * 10^k / 255`. -/
def specRound (a : Nat) : Nat × Nat :=
  let k := specPlaces 400 a
  ((2 * a * 10 ^ k + 255) / 510, k)

/-- The digits of the decimal `s / 10^k`: those of the integer part, and the `k`
digits after the decimal point less the trailing zeros. -/
def specDecimalParts (s k : Nat) : List Char × List Char :=
  let fd := Nat.toDigits 10 (s % 10 ^ k)
  (Nat.toDigits 10 (s / 10 ^ k),
    (List.replicate (k - fd.length) '0' ++ fd).rdropWhile (fun c => c == '0'))

/-- Digits before and after a decimal point put together: the decimal point `dp`
stands only where a digit follows it. -/
def specJoin (dp : Char) (ip frac : List Char) : String :=
  String.mk (if frac.isEmpty then ip else ip ++ [dp] ++ frac)

/-- Plain decimal text of `s / 10^k` with the decimal point `dp`, trailing zeros
and a trailing decimal point removed. -/
def specDecimalText (dp : Char) (s k : Nat) : String :=
  specJoin dp (specDecimalParts s k).1 (specDecimalParts s k).2

/-- The digits of `a / 255` rounded to two significant digits, before and after
the decimal point. -/
def specOpacityParts (a : Nat) : List Char × List Char :=
  if a = 0 then (['0'], []) else specDecimalParts (specRound a).1 (specRound a).2

/-- Decimal text of `a / 255` rounded to two significant digits, with the decimal
point `dp`. -/
def specOpacity (dp : Char) (a : Nat) : String :=
  if a = 0 then "0" else specDecimalText dp (specRound a).1 (specRound a).2

/-- Value of an upper-case hexadecimal digit (0 for any other character). -/
def hexValue (ch : Char) : Nat :=
  if 48 ≤ ch.toNat ∧ ch.toNat ≤ 57 then ch.toNat - 48
  else if 65 ≤ ch.toNat ∧ ch.toNat ≤ 70 then ch.toNat - 55
  else 0

/-- Reading of a text `#RRGGBB` back into its three channel values. -/
def parseHexColor (s : String) : Option (Int × Int × Int) :=
  match s.data with
  | [_, r1, r0, g1, g0, b1, b0] =>
    some (((16 * hexValue r1 + hexValue r0 : Nat) : Int),
      ((16 * hexValue g1 + hexValue g0 : Nat) : Int),
      ((16 * hexValue b1 + hexValue b0 : Nat) : Int))
  | _ => none

/-! ## Bit-level facts -/

theorem int_and_255 (x : Int) : int_and x 255 = x % 256 := by
  unfold int_and ofU32 toU32
  have h : Nat.land (x % 4294967296).toNat ((255 : Int) % 4294967296).toNat
      = (x % 4294967296).toNat % 256 := by
    have := Nat.and_pow_two_sub_one_eq_mod (x % 4294967296).toNat 8
    simpa using this
  rw [h]
  split <;> omega

theorem int_and_mask24 (x : Int) : int_and x 16777215 = x % 16777216 := by
  unfold int_and ofU32 toU32
  have h : Nat.land (x % 4294967296).toNat ((16777215 : Int) % 4294967296).toNat
      = (x % 4294967296).toNat % 16777216 := by
    have := Nat.and_pow_two_sub_one_eq_mod (x % 4294967296).toNat 24
    simpa using this
  rw [h]
  split <;> omega

theorem int_shr_eq_div (x : Int) (k : Nat) : int_shr x k = x / 2 ^ k := by
  unfold int_shr
  rw [Int.shiftRight_eq_div_pow x k]
  norm_cast

theorem R_RED_eq (c : Int) : R_RED c = c % 256 := by
  unfold R_RED
  exact int_and_255 c

theorem R_GREEN_eq (c : Int) : R_GREEN c = c / 256 % 256 := by
  unfold R_GREEN
  rw [int_and_255, int_shr_eq_div]
  norm_num

theorem R_BLUE_eq (c : Int) : R_BLUE c = c / 65536 % 256 := by
  unfold R_BLUE
  rw [int_and_255, int_shr_eq_div]
  norm_num

theorem R_ALPHA_eq (c : Int) : R_ALPHA c = c / 16777216 % 256 := by
  unfold R_ALPHA
  rw [int_and_255, int_shr_eq_div]
  norm_num

theorem R_ALPHA_range (c : Int) : 0 ≤ R_ALPHA c ∧ R_ALPHA c ≤ 255 := by
  rw [R_ALPHA_eq]
  omega

theorem R_RGBA_eq (r g b a : Nat) (hr : r ≤ 255) (hg : g ≤ 255) (hb : b ≤ 255) :
    R_RGBA r g b a = ofU32 (r + 256 * g + 65536 * b + 16777216 * a) := by
  unfold R_RGBA
  congr 1
  have h1 : r ||| g <<< 8 = 2 ^ 8 * g + r := by
    rw [Nat.shiftLeft_eq, Nat.lor_comm, Nat.mul_comm g]
    exact (Nat.mul_add_lt_is_or (by omega) g).symm
  have h2 : (2 ^ 8 * g + r) ||| b <<< 16 = 2 ^ 16 * b + (2 ^ 8 * g + r) := by
    rw [Nat.shiftLeft_eq, Nat.lor_comm, Nat.mul_comm b]
    exact (Nat.mul_add_lt_is_or (by omega) b).symm
  have h3 : (2 ^ 16 * b + (2 ^ 8 * g + r)) ||| a <<< 24
      = 2 ^ 24 * a + (2 ^ 16 * b + (2 ^ 8 * g + r)) := by
    rw [Nat.shiftLeft_eq, Nat.lor_comm, Nat.mul_comm a]
    exact (Nat.mul_add_lt_is_or (by omega) a).symm
  rw [h1, h2, h3]
  omega

/-! ## The conversion `%02X` on a channel value -/

set_option maxRecDepth 100000 in
theorem fmt02X_fin : ∀ v : Fin 256, fmt02X ((v.val : Nat) : Int) = specHex2 ((v.val : Nat) : Int) := by
  decide

theorem fmt02X_byte (x : Int) (h0 : 0 ≤ x) (h1 : x ≤ 255) : fmt02X x = specHex2 x := by
  have hx : x = ((x.toNat : Nat) : Int) := by omega
  have := fmt02X_fin ⟨x.toNat, by omega⟩
  rw [hx]
  exact this

theorem sprintf_color_bytes (r g b : Int) (hr : 0 ≤ r ∧ r ≤ 255) (hg : 0 ≤ g ∧ g ≤ 255)
    (hb : 0 ≤ b ∧ b ≤ 255) : sprintf_color r g b = some (specHexColor r g b) := by
  unfold sprintf_color specHexColor
  rw [fmt02X_byte r hr.1 hr.2, fmt02X_byte g hg.1 hg.2, fmt02X_byte b hb.1 hb.2]
  simp [specHex2, bufSize]

theorem color_new (c : Int) :
    (a_color.new c).color = some (specHexColor (R_RED c) (R_GREEN c) (R_BLUE c)) := by
  unfold a_color.color a_color.new
  apply sprintf_color_bytes
  · rw [R_RED_eq]; omega
  · rw [R_GREEN_eq]; omega
  · rw [R_BLUE_eq]; omega

/-! ## The stream insertion on the 256 alpha values -/

set_option maxRecDepth 1000000 in
theorem parts_fin : ∀ v : Fin 256,
    (int_div_double ((v.val : Nat) : Int) 255).neg = false
      ∧ (fmtG2parts (int_div_double ((v.val : Nat) : Int) 255).num
          (int_div_double ((v.val : Nat) : Int) 255).den).2.2 = []
      ∧ (fmtG2parts (int_div_double ((v.val : Nat) : Int) 255).num
          (int_div_double ((v.val : Nat) : Int) 255).den).1 = (specOpacityParts v.val).1
      ∧ stripZeros (fmtG2parts (int_div_double ((v.val : Nat) : Int) 255).num
          (int_div_double ((v.val : Nat) : Int) 255).den).2.1 = (specOpacityParts v.val).2 := by
  decide

set_option maxRecDepth 1000000 in
theorem zero_parts_fin : ∀ v : Fin 256,
    ((specOpacityParts v.val).2 = [] ∧ (specOpacityParts v.val).1 = ['0']) ↔ v.val = 0 := by
  decide

theorem withFraction_eq (dp : Char) (ip frac : List Char) :
    String.mk (withFraction dp ip frac) = specJoin dp ip (stripZeros frac) := by
  unfold withFraction specJoin
  split <;> simp_all

theorem specOpacity_parts (dp : Char) (a : Nat) :
    specOpacity dp a = specJoin dp (specOpacityParts a).1 (specOpacityParts a).2 := by
  unfold specOpacity specOpacityParts
  by_cases h : a = 0
  · rw [if_pos h, if_pos h]
    rfl
  · rw [if_neg h, if_neg h]
    rfl

theorem specJoin_eq_zero (dp : Char) (ip frac : List Char) :
    specJoin dp ip frac = "0" ↔ (frac = [] ∧ ip = ['0']) := by
  unfold specJoin
  cases frac with
  | nil =>
    constructor
    · intro h
      exact ⟨rfl, congrArg String.data h⟩
    · rintro ⟨-, h⟩
      rw [h]
      rfl
  | cons f fs =>
    constructor
    · intro h
      have hl := congrArg String.length h
      simp [String.length] at hl
      omega
    · rintro ⟨h, -⟩
      exact absurd h (List.cons_ne_nil f fs)

theorem opacity_fin (dp : Char) (v : Fin 256) :
    fmtG2 dp (int_div_double ((v.val : Nat) : Int) 255) = specOpacity dp v.val := by
  obtain ⟨hn, hs, hi, hf⟩ := parts_fin v
  unfold fmtG2 fmtG2body
  rw [hn, hs, specOpacity_parts, ← hi, ← hf, ← withFraction_eq]
  simp

set_option maxRecDepth 1000000 in
theorem ratio_fin : ∀ v : Fin 256,
    (int_div_double ((v.val : Nat) : Int) 255).neg = false
      ∧ (int_div_double ((v.val : Nat) : Int) 255).num ≤ (int_div_double ((v.val : Nat) : Int) 255).den
      ∧ 0 < (int_div_double ((v.val : Nat) : Int) 255).den := by
  decide

set_option maxRecDepth 1000000 in
theorem specRound_fin : ∀ v : Fin 256, 0 < v.val →
    10 ≤ (specRound v.val).1 ∧ (specRound v.val).1 ≤ 100
      ∧ 2 * v.val * 10 ^ (specRound v.val).2 < 255 * (2 * (specRound v.val).1 + 1)
      ∧ 255 * (2 * (specRound v.val).1) < 2 * v.val * 10 ^ (specRound v.val).2 + 255 := by
  decide

theorem opacity_byte (dp : Char) (x : Int) (h0 : 0 ≤ x) (h1 : x ≤ 255) :
    fmtG2 dp (int_div_double x 255) = specOpacity dp x.toNat := by
  have hx : ((x.toNat : Nat) : Int) = x := by omega
  have h := opacity_fin dp ⟨x.toNat, by omega⟩
  simp only [hx] at h
  exact h

theorem opacity_zero_byte (dp : Char) (x : Int) (h0 : 0 ≤ x) (h1 : x ≤ 255) :
    fmtG2 dp (int_div_double x 255) = "0" ↔ x = 0 := by
  have h := zero_parts_fin ⟨x.toNat, by omega⟩
  simp only at h
  rw [opacity_byte dp x h0 h1, specOpacity_parts, specJoin_eq_zero, h]
  omega

theorem opacity_one (dp : Char) : fmtG2 dp (int_div_double 1 255)
    = String.mk ['0', dp, '0', '0', '3', '9'] := by
  have h : specOpacityParts 1 = (['0'], ['0', '0', '3', '9']) := by decide
  have e : fmtG2 dp (int_div_double 1 255) = specOpacity dp 1 :=
    opacity_fin dp ⟨1, by omega⟩
  rw [e, specOpacity_parts, h]
  rfl

theorem opacity_127 (dp : Char) : fmtG2 dp (int_div_double 127 255)
    = String.mk ['0', dp, '5'] := by
  have h : specOpacityParts 127 = (['0'], ['5']) := by decide
  have e : fmtG2 dp (int_div_double 127 255) = specOpacity dp 127 :=
    opacity_fin dp ⟨127, by omega⟩
  rw [e, specOpacity_parts, h]
  rfl

theorem opacity_128 (dp : Char) : fmtG2 dp (int_div_double 128 255)
    = String.mk ['0', dp, '5'] := by
  have h : specOpacityParts 128 = (['0'], ['5']) := by decide
  have e : fmtG2 dp (int_div_double 128 255) = specOpacity dp 128 :=
    opacity_fin dp ⟨128, by omega⟩
  rw [e, specOpacity_parts, h]
  rfl

theorem opacity_254 (dp : Char) : fmtG2 dp (int_div_double 254 255) = "1" := by
  have h : specOpacityParts 254 = (['1'], []) := by decide
  have e : fmtG2 dp (int_div_double 254 255) = specOpacity dp 254 :=
    opacity_fin dp ⟨254, by omega⟩
  rw [e, specOpacity_parts, h]
  rfl

theorem opacity_255 (dp : Char) : fmtG2 dp (int_div_double 255 255) = "1" := by
  have h : specOpacityParts 255 = (['1'], []) := by decide
  have e : fmtG2 dp (int_div_double 255 255) = specOpacity dp 255 :=
    opacity_fin dp ⟨255, by omega⟩
  rw [e, specOpacity_parts, h]
  rfl

theorem ratio_byte (x : Int) (h0 : 0 ≤ x) (h1 : x ≤ 255) :
    0 ≤ (int_div_double x 255).toRat ∧ (int_div_double x 255).toRat ≤ 1 := by
  have hx : x = ((x.toNat : Nat) : Int) := by omega
  obtain ⟨hn, hle, hpos⟩ := ratio_fin ⟨x.toNat, by omega⟩
  rw [← hx] at hn hle hpos
  unfold Dbl.toRat
  rw [hn]
  have hd : (0 : ℚ) < ((int_div_double x 255).den : ℚ) := by exact_mod_cast hpos
  have hl : ((int_div_double x 255).num : ℚ) ≤ ((int_div_double x 255).den : ℚ) := by
    exact_mod_cast hle
  constructor
  · simp only [Bool.false_eq_true, if_false, one_mul]
    positivity
  · simp only [Bool.false_eq_true, if_false, one_mul]
    exact (div_le_one hd).mpr hl

/-! ## Calls leave the object alone -/

theorem call_state (self : a_color) (dp : Char) (k : Call) : (self.call dp k).2 = self := by
  cases k <;> rfl

theorem run_state (self : a_color) (ks : List (Char × Call)) : (self.run ks).2 = self := by
  induction ks with
  | nil => rfl
  | cons k ks ih =>
    simp only [a_color.run]
    rw [call_state]
    exact ih

theorem run_results (self : a_color) (ks : List (Char × Call)) :
    (self.run ks).1 = ks.map (fun k => (self.call k.1 k.2).1) := by
  induction ks with
  | nil => rfl
  | cons k ks ih =>
    simp only [a_color.run, List.map_cons]
    rw [call_state, ih]

/-! ## Accuracy of the two-digit rounding -/

theorem specRound_near (a : Nat) (h0 : 0 < a) (h1 : a ≤ 255) :
    |(a : ℚ) / 255 - ((specRound a).1 : ℚ) / 10 ^ (specRound a).2|
      < 1 / (2 * 10 ^ (specRound a).2) := by
  obtain ⟨-, -, h3, h4⟩ := specRound_fin ⟨a, by omega⟩ h0
  simp only at h3 h4
  generalize (specRound a).1 = s at h3 h4 ⊢
  generalize (specRound a).2 = k at h3 h4 ⊢
  have hT : (0 : ℚ) < 10 ^ k := by positivity
  have q3 : (2 * a * 10 ^ k : ℚ) < 255 * (2 * s + 1) := by exact_mod_cast h3
  have q4 : (255 * (2 * s) : ℚ) < 2 * a * 10 ^ k + 255 := by exact_mod_cast h4
  have e1 : (a : ℚ) / 255 - (s : ℚ) / 10 ^ k
      = (2 * a * 10 ^ k - 255 * (2 * s)) / (510 * 10 ^ k) := by
    field_simp
    ring
  have e2 : (1 : ℚ) / (2 * 10 ^ k) = 255 / (510 * 10 ^ k) := by
    field_simp
    ring
  have hD : (0 : ℚ) < 510 * 10 ^ k := by positivity
  rw [e1, e2, abs_lt, ← neg_div, div_lt_div_iff_of_pos_right hD, div_lt_div_iff_of_pos_right hD]
  constructor <;> linarith

/-! ## The claims -/

/-- C1: for every 32-bit integer `c`, `a_color(c).color()` is the character `#`
followed by the two-digit, zero-padded, upper-case hexadecimal encodings of
`c & 255`, `(c >> 8) & 255` and `(c >> 16) & 255`, in that order; channels
(255,0,128) give `#FF0080`, (0,0,0) give `#000000` and (16,32,48) give `#102030`. -/
theorem C1_color_is_hex_of_channels (c : Int) (hc : isInt32 c) :
    (a_color.new c).color
        = some (specHexColor (int_and c 255) (int_and (int_shr c 8) 255)
            (int_and (int_shr c 16) 255))
      ∧ (R_RED c = 255 → R_GREEN c = 0 → R_BLUE c = 128 →
          (a_color.new c).color = some "#FF0080")
      ∧ (R_RED c = 0 → R_GREEN c = 0 → R_BLUE c = 0 →
          (a_color.new c).color = some "#000000")
      ∧ (R_RED c = 16 → R_GREEN c = 32 → R_BLUE c = 48 →
          (a_color.new c).color = some "#102030") := by
  have _ := hc
  refine ⟨color_new c, ?_, ?_, ?_⟩
  · intro h1 h2 h3
    rw [color_new, h1, h2, h3]
    decide
  · intro h1 h2 h3
    rw [color_new, h1, h2, h3]
    decide
  · intro h1 h2 h3
    rw [color_new, h1, h2, h3]
    decide

/-- C1 at the opaque colour (255,0,128,255), the `int` -8388353. -/
theorem C1_color_is_hex_of_channels_witness :
    isInt32 (-8388353) ∧ (a_color.new (-8388353)).color = some "#FF0080" :=
  ⟨by decide,
    (C1_color_is_hex_of_channels (-8388353) (by decide)).2.1 (by decide) (by decide) (by decide)⟩

/-- C2: for every 32-bit integer `c`, `a_color(c).is_visible()` is nonzero exactly
when `c` is not `NA_INTEGER` and the alpha stored by the constructor is not 0; it
is 0 for `NA_INTEGER`, 0 whenever alpha is 0, and 1 for every other `c`. -/
theorem C2_is_visible_iff (c : Int) (hc : isInt32 c) :
    ((a_color.new c).is_visible ≠ 0 ↔ (c ≠ NA_INTEGER ∧ (a_color.new c).alpha ≠ 0))
      ∧ (c = NA_INTEGER → (a_color.new c).is_visible = 0)
      ∧ ((a_color.new c).alpha = 0 → (a_color.new c).is_visible = 0)
      ∧ (c ≠ NA_INTEGER → (a_color.new c).alpha ≠ 0 → (a_color.new c).is_visible = 1) := by
  have _ := hc
  by_cases h1 : c = NA_INTEGER <;> by_cases h2 : R_ALPHA c = 0 <;>
    simp [a_color.is_visible, a_color.new, h1, h2]

/-- C2 at the half-transparent colour (16,32,48,128), the `int` -2144329712. -/
theorem C2_is_visible_iff_witness :
    isInt32 (-2144329712) ∧ (a_color.new (-2144329712)).is_visible = 1 :=
  ⟨by decide, (C2_is_visible_iff (-2144329712) (by decide)).2.2.2 (by decide) (by decide)⟩

/-- C3: for every 32-bit integer `c`, `a_color(c).is_transparent()` is true exactly
when `(c >> 24) & 255` is 0, which is exactly when the alpha field stored by the
constructor is 0; so for every `c` other than `NA_INTEGER`, `is_visible()` is the
negation of `is_transparent()`. -/
theorem C3_is_transparent_agrees (c : Int) (hc : isInt32 c) :
    ((a_color.new c).is_transparent ≠ 0 ↔ int_and (int_shr c 24) 255 = 0)
      ∧ ((a_color.new c).is_transparent ≠ 0 ↔ (a_color.new c).alpha = 0)
      ∧ (c ≠ NA_INTEGER →
          ((a_color.new c).is_visible ≠ 0 ↔ (a_color.new c).is_transparent = 0)
            ∧ (a_color.new c).is_visible = 1 - (a_color.new c).is_transparent) := by
  have _ := hc
  have hA : int_and (int_shr c 24) 255 = R_ALPHA c := rfl
  rw [hA]
  by_cases h2 : R_ALPHA c = 0
  · simp [a_color.is_visible, a_color.is_transparent, a_color.new, h2]
  · simp [a_color.is_visible, a_color.is_transparent, a_color.new, h2]

/-- C3 at the fully transparent colour (0,0,0,0), the `int` 0. -/
theorem C3_is_transparent_agrees_witness :
    isInt32 0 ∧ (a_color.new 0).is_transparent ≠ 0 ∧ (a_color.new 0).is_visible = 0 :=
  ⟨by decide, (C3_is_transparent_agrees 0 (by decide)).2.1.mpr (by decide),
    by decide⟩

/-- C4: for every 32-bit integer `c` the alpha `a` extracted by the constructor is
in 0..255 and, whatever the decimal point `dp` of the locale of the stream,
`a_color(c).opacity()` is the plain decimal text of `a / 255` rounded to two
significant digits, trailing zeros and a trailing decimal point removed (`0` for
`a = 0`; otherwise the text of `s / 10^k` with `s` from 10 to 100 and
`|a / 255 - s / 10^k| < 1 / (2 * 10^k)`); the binary64 ratio that is formatted lies
in [0, 1]. -/
theorem C4_opacity_two_significant_digits (c : Int) (hc : isInt32 c) (dp : Char) :
    (0 ≤ (a_color.new c).alpha ∧ (a_color.new c).alpha ≤ 255)
      ∧ (a_color.new c).opacity dp = specOpacity dp (a_color.new c).alpha.toNat
      ∧ ((a_color.new c).alpha = 0 → (a_color.new c).opacity dp = "0")
      ∧ (0 < (a_color.new c).alpha →
          (a_color.new c).opacity dp
              = specDecimalText dp (specRound (a_color.new c).alpha.toNat).1
                  (specRound (a_color.new c).alpha.toNat).2
            ∧ 10 ≤ (specRound (a_color.new c).alpha.toNat).1
            ∧ (specRound (a_color.new c).alpha.toNat).1 ≤ 100
            ∧ |(((a_color.new c).alpha.toNat : Nat) : ℚ) / 255
                  - ((specRound (a_color.new c).alpha.toNat).1 : ℚ)
                      / 10 ^ (specRound (a_color.new c).alpha.toNat).2|
                < 1 / (2 * 10 ^ (specRound (a_color.new c).alpha.toNat).2))
      ∧ 0 ≤ (int_div_double (a_color.new c).alpha 255).toRat
      ∧ (int_div_double (a_color.new c).alpha 255).toRat ≤ 1 := by
  have _ := hc
  have hr : 0 ≤ (a_color.new c).alpha ∧ (a_color.new c).alpha ≤ 255 := R_ALPHA_range c
  have hop : (a_color.new c).opacity dp = specOpacity dp (a_color.new c).alpha.toNat :=
    opacity_byte dp _ hr.1 hr.2
  generalize (a_color.new c).opacity dp = txt at hop ⊢
  generalize (a_color.new c).alpha = x at hr hop ⊢
  refine ⟨hr, hop, ?_, ?_, (ratio_byte x hr.1 hr.2).1, (ratio_byte x hr.1 hr.2).2⟩
  · intro h0
    rw [hop, h0]
    rfl
  · intro hpos
    have hn : 0 < x.toNat := by omega
    have hle : x.toNat ≤ 255 := by omega
    obtain ⟨f1, f2, -, -⟩ := specRound_fin ⟨x.toNat, by omega⟩ hn
    refine ⟨?_, f1, f2, specRound_near x.toNat hn hle⟩
    rw [hop]
    unfold specOpacity
    rw [if_neg (by omega)]

/-- C4 at the colour (16,32,48,128), the `int` -2144329712, whose alpha is 128, under
a locale with the decimal point `.` and under one with the decimal point `,`. -/
theorem C4_opacity_two_significant_digits_witness :
    isInt32 (-2144329712)
      ∧ ((a_color.new (-2144329712)).opacity '.'
            = specOpacity '.' (a_color.new (-2144329712)).alpha.toNat
          ∧ specOpacity '.' (a_color.new (-2144329712)).alpha.toNat = "0.5")
      ∧ ((a_color.new (-2144329712)).opacity ','
            = specOpacity ',' (a_color.new (-2144329712)).alpha.toNat
          ∧ specOpacity ',' (a_color.new (-2144329712)).alpha.toNat = "0,5") :=
  ⟨by decide,
    ⟨(C4_opacity_two_significant_digits (-2144329712) (by decide) '.').2.1, by decide⟩,
    ⟨(C4_opacity_two_significant_digits (-2144329712) (by decide) ',').2.1, by decide⟩⟩

/-- C5, as stated, fails: under a locale whose decimal point is `,` the colour
(16,32,48,128), of alpha 128, has the opacity text `0,5`, which is not `0.5`. -/
theorem C5_counterexample :
    isInt32 (R_RGBA 16 32 48 128)
      ∧ (a_color.new (R_RGBA 16 32 48 128)).alpha = 128
      ∧ (a_color.new (R_RGBA 16 32 48 128)).opacity ',' = "0,5"
      ∧ (a_color.new (R_RGBA 16 32 48 128)).opacity ',' ≠ "0.5" := by
  decide

/-- C5, amended: whatever the decimal point `dp` of the locale of the stream,
`opacity()` is exactly `1` for a colour with alpha 255 and exactly `0` for a colour
with alpha 0; for a colour with alpha 128 it is the three characters `0`, `dp`, `5`,
which is exactly `0.5` when the decimal point is `.`. -/
theorem C5_opacity_scenarios (c : Int) (hc : isInt32 c) (dp : Char) :
    (R_ALPHA c = 255 → (a_color.new c).opacity dp = "1")
      ∧ (R_ALPHA c = 0 → (a_color.new c).opacity dp = "0")
      ∧ (R_ALPHA c = 128 → (a_color.new c).opacity dp = String.mk ['0', dp, '5'])
      ∧ (R_ALPHA c = 128 → dp = '.' → (a_color.new c).opacity dp = "0.5") := by
  have _ := hc
  refine ⟨?_, ?_, ?_, ?_⟩
  · intro h
    simp only [a_color.opacity, a_color.new]
    rw [h]
    exact opacity_255 dp
  · intro h
    simp only [a_color.opacity, a_color.new]
    rw [h]
    exact (opacity_zero_byte dp 0 (by omega) (by omega)).mpr rfl
  · intro h
    simp only [a_color.opacity, a_color.new]
    rw [h]
    exact opacity_128 dp
  · intro h hdp
    simp only [a_color.opacity, a_color.new]
    rw [h, hdp]
    exact opacity_128 '.'

/-- C5, amended, at the three documented colours (255,0,128,255), (0,0,0,0) and
(16,32,48,128), under the decimal point `.`, and at the last under `,`. -/
theorem C5_opacity_scenarios_witness :
    (isInt32 (R_RGBA 255 0 128 255) ∧ isInt32 (R_RGBA 0 0 0 0) ∧ isInt32 (R_RGBA 16 32 48 128))
      ∧ (a_color.new (R_RGBA 255 0 128 255)).opacity '.' = "1"
      ∧ (a_color.new (R_RGBA 0 0 0 0)).opacity '.' = "0"
      ∧ (a_color.new (R_RGBA 16 32 48 128)).opacity '.' = "0.5"
      ∧ (a_color.new (R_RGBA 16 32 48 128)).opacity ',' = "0,5" :=
  ⟨by decide,
    (C5_opacity_scenarios (R_RGBA 255 0 128 255) (by decide) '.').1 (by decide),
    (C5_opacity_scenarios (R_RGBA 0 0 0 0) (by decide) '.').2.1 (by decide),
    (C5_opacity_scenarios (R_RGBA 16 32 48 128) (by decide) '.').2.2.2 (by decide) rfl,
    (C5_opacity_scenarios (R_RGBA 16 32 48 128) (by decide) ',').2.2.1 (by decide)⟩

/-- C6: for every 32-bit integer `c`, after construction the alpha field is the
alpha channel `(col >> 24) & 255` of the col field, lies in 0..255 (it is the top
byte of the bit pattern of `c`, also for negative `c`), col is `c`, and the relation
between alpha and col still holds after any sequence of calls to the four methods,
under whatever locale each call is made. -/
theorem C6_alpha_invariant (c : Int) (hc : isInt32 c) (calls : List (Char × Call)) :
    (a_color.new c).alpha = int_and (int_shr (a_color.new c).col 24) 255
      ∧ 0 ≤ (a_color.new c).alpha ∧ (a_color.new c).alpha ≤ 255
      ∧ (a_color.new c).alpha = ((toU32 c / 16777216 : Nat) : Int)
      ∧ (a_color.new c).col = c
      ∧ ((a_color.new c).run calls).2.alpha
          = int_and (int_shr ((a_color.new c).run calls).2.col 24) 255 := by
  have hr := R_ALPHA_range c
  refine ⟨rfl, hr.1, hr.2, ?_, rfl, ?_⟩
  · show R_ALPHA c = _
    rw [R_ALPHA_eq]
    unfold toU32
    unfold isInt32 at hc
    omega
  · rw [run_state]
    rfl

/-- C6 at `NA_INTEGER` (a negative `c`) with a sequence of all four calls. -/
theorem C6_alpha_invariant_witness :
    isInt32 (-2147483648) ∧ (a_color.new (-2147483648)).alpha = 128
      ∧ ((a_color.new (-2147483648)).run
          [('.', Call.color), (',', Call.opacity), ('.', Call.is_visible),
            ('.', Call.is_transparent)]).2.alpha
        = int_and (int_shr ((a_color.new (-2147483648)).run
          [('.', Call.color), (',', Call.opacity), ('.', Call.is_visible),
            ('.', Call.is_transparent)]).2.col 24) 255 :=
  ⟨by decide, by decide,
    (C6_alpha_invariant (-2147483648) (by decide)
      [('.', Call.color), (',', Call.opacity), ('.', Call.is_visible),
        ('.', Call.is_transparent)]).2.2.2.2.2⟩

/-- C7, as stated, fails: the real colour (0,0,0,128) packs to `NA_INTEGER`, its
alpha is 128, and `is_visible()` reports it as invisible. -/
theorem C7_counterexample :
    R_RGBA 0 0 0 128 = NA_INTEGER
      ∧ (a_color.new (R_RGBA 0 0 0 128)).alpha = 128
      ∧ (a_color.new (R_RGBA 0 0 0 128)).is_visible = 0 := by
  decide

/-- C7, amended: for red, green, blue and alpha in 0..255 the packed colour is
`NA_INTEGER` exactly when the colour is (0,0,0,128); the packed colour is a 32-bit
integer whose extracted alpha is the alpha packed; and for every real colour other
than (0,0,0,128) with nonzero alpha `is_visible()` is 1. -/
theorem C7_na_distinct_except_black_half_alpha (r g b a : Nat)
    (hr : r ≤ 255) (hg : g ≤ 255) (hb : b ≤ 255) (ha : a ≤ 255) :
    (R_RGBA r g b a = NA_INTEGER ↔ (r = 0 ∧ g = 0 ∧ b = 0 ∧ a = 128))
      ∧ isInt32 (R_RGBA r g b a)
      ∧ (a_color.new (R_RGBA r g b a)).alpha = (a : Int)
      ∧ (¬ (r = 0 ∧ g = 0 ∧ b = 0 ∧ a = 128) → a ≠ 0 →
          (a_color.new (R_RGBA r g b a)).is_visible = 1) := by
  have hna : R_RGBA r g b a = NA_INTEGER ↔ (r = 0 ∧ g = 0 ∧ b = 0 ∧ a = 128) := by
    rw [R_RGBA_eq r g b a hr hg hb]
    unfold ofU32 NA_INTEGER
    split <;> omega
  have hal : R_ALPHA (R_RGBA r g b a) = (a : Int) := by
    rw [R_ALPHA_eq, R_RGBA_eq r g b a hr hg hb]
    unfold ofU32
    split <;> omega
  refine ⟨hna, ?_, hal, ?_⟩
  · rw [R_RGBA_eq r g b a hr hg hb]
    unfold ofU32 isInt32
    split <;> omega
  · intro hne ha0
    have h1 : R_RGBA r g b a ≠ NA_INTEGER := fun h => hne (hna.mp h)
    have h2 : R_ALPHA (R_RGBA r g b a) ≠ 0 := by rw [hal]; omega
    simp [a_color.is_visible, a_color.new, h1, h2]

/-- C7, amended, at the colour (16,32,48,128). -/
theorem C7_na_distinct_except_black_half_alpha_witness :
    ((16 : Nat) ≤ 255 ∧ (32 : Nat) ≤ 255 ∧ (48 : Nat) ≤ 255 ∧ (128 : Nat) ≤ 255)
      ∧ R_RGBA 16 32 48 128 ≠ NA_INTEGER
      ∧ (a_color.new (R_RGBA 16 32 48 128)).is_visible = 1 :=
  ⟨by decide, fun h => absurd
      ((C7_na_distinct_except_black_half_alpha 16 32 48 128
        (by decide) (by decide) (by decide) (by decide)).1.mp h) (by decide),
    (C7_na_distinct_except_black_half_alpha 16 32 48 128
      (by decide) (by decide) (by decide) (by decide)).2.2.2 (by decide) (by decide)⟩

/-- C8: `color()` does not depend on alpha: two 32-bit integers that agree on their
low 24 bits give the same text. -/
theorem C8_color_independent_of_alpha (c1 c2 : Int) (h1 : isInt32 c1) (h2 : isInt32 c2)
    (h : int_and c1 16777215 = int_and c2 16777215) :
    (a_color.new c1).color = (a_color.new c2).color := by
  have _ := h1
  have _ := h2
  rw [int_and_mask24, int_and_mask24] at h
  rw [color_new, color_new, R_RED_eq, R_RED_eq, R_GREEN_eq, R_GREEN_eq, R_BLUE_eq, R_BLUE_eq]
  have e1 : c1 % 256 = c2 % 256 := by omega
  have e2 : c1 / 256 % 256 = c2 / 256 % 256 := by omega
  have e3 : c1 / 65536 % 256 = c2 / 65536 % 256 := by omega
  rw [e1, e2, e3]

/-- C8 at (16,32,48) with alpha 128 and with alpha 0. -/
theorem C8_color_independent_of_alpha_witness :
    isInt32 (-2144329712) ∧ isInt32 3153936
      ∧ int_and (-2144329712) 16777215 = int_and 3153936 16777215
      ∧ (a_color.new (-2144329712)).color = (a_color.new 3153936).color :=
  ⟨by decide, by decide, by decide,
    C8_color_independent_of_alpha (-2144329712) 3153936 (by decide) (by decide) (by decide)⟩

/-- C9: `color()` always succeeds with exactly 7 characters: for every 32-bit
integer `c` the three channel values are in 0..255, each `%02X` field is two
characters, the text has length 7 and starts with `#`, and with its terminator it
fits in the 100-byte buffer, so the overflow outcome does not occur. -/
theorem C9_color_total_length_seven (c : Int) (hc : isInt32 c) :
    (0 ≤ R_RED c ∧ R_RED c ≤ 255) ∧ (0 ≤ R_GREEN c ∧ R_GREEN c ≤ 255)
      ∧ (0 ≤ R_BLUE c ∧ R_BLUE c ≤ 255)
      ∧ (fmt02X (R_RED c)).length = 2 ∧ (fmt02X (R_GREEN c)).length = 2
      ∧ (fmt02X (R_BLUE c)).length = 2
      ∧ (a_color.new c).color ≠ none
      ∧ ∃ s : String, (a_color.new c).color = some s ∧ s.length = 7
          ∧ s.data.head? = some '#' ∧ s.length + 1 ≤ bufSize := by
  have _ := hc
  have hr : 0 ≤ R_RED c ∧ R_RED c ≤ 255 := by rw [R_RED_eq]; omega
  have hg : 0 ≤ R_GREEN c ∧ R_GREEN c ≤ 255 := by rw [R_GREEN_eq]; omega
  have hb : 0 ≤ R_BLUE c ∧ R_BLUE c ≤ 255 := by rw [R_BLUE_eq]; omega
  refine ⟨hr, hg, hb, ?_, ?_, ?_, ?_, ?_⟩
  · rw [fmt02X_byte _ hr.1 hr.2]; rfl
  · rw [fmt02X_byte _ hg.1 hg.2]; rfl
  · rw [fmt02X_byte _ hb.1 hb.2]; rfl
  · rw [color_new]; exact Option.some_ne_none _
  · refine ⟨_, color_new c, ?_, ?_, ?_⟩
    · simp [specHexColor, specHex2, String.length]
    · simp [specHexColor]
    · simp [specHexColor, specHex2, String.length, bufSize]

/-- C9 at `NA_INTEGER`. -/
theorem C9_color_total_length_seven_witness :
    isInt32 (-2147483648) ∧ (a_color.new (-2147483648)).color ≠ none :=
  ⟨by decide, (C9_color_total_length_seven (-2147483648) (by decide)).2.2.2.2.2.2.1⟩

/-- C10: an `a_color` is immutable after construction: each of the four methods
leaves col and alpha as they were, so after any sequence of calls the object is
the one constructed, and every call in the sequence returns what it returns when
called first, under the same locale, on a freshly constructed `a_color(c)`. -/
theorem C10_methods_do_not_mutate (c : Int) (hc : isInt32 c) (calls : List (Char × Call)) :
    (∀ (dp : Char) (k : Call), ((a_color.new c).call dp k).2.col = c
        ∧ ((a_color.new c).call dp k).2.alpha = (a_color.new c).alpha)
      ∧ ((a_color.new c).run calls).2 = a_color.new c
      ∧ ((a_color.new c).run calls).1
          = calls.map (fun k => ((a_color.new c).call k.1 k.2).1) := by
  have _ := hc
  refine ⟨?_, run_state _ calls, run_results _ calls⟩
  intro dp k
  rw [call_state]
  exact ⟨rfl, rfl⟩

/-- C10 at (16,32,48,128) with `is_visible` called before and after the others,
under a locale with the decimal point `.`. -/
theorem C10_methods_do_not_mutate_witness :
    isInt32 (-2144329712)
      ∧ ((a_color.new (-2144329712)).run
          [('.', Call.is_visible), ('.', Call.color), ('.', Call.opacity),
            ('.', Call.is_transparent), ('.', Call.is_visible)]).1
        = [Result.int 1, Result.str (some "#102030"), Result.str (some "0.5"), Result.int 0,
            Result.int 1] :=
  ⟨by decide,
    ((C10_methods_do_not_mutate (-2144329712) (by decide)
      [('.', Call.is_visible), ('.', Call.color), ('.', Call.opacity),
        ('.', Call.is_transparent), ('.', Call.is_visible)]).2.2).trans
      (by decide)⟩

/-! ## Reading the channels back from the text -/

theorem hexValue_specHexDigit : ∀ n : Fin 16, hexValue (specHexDigit n.val) = n.val := by
  decide

theorem parseHexColor_spec (r g b : Int) (hr : 0 ≤ r ∧ r ≤ 255) (hg : 0 ≤ g ∧ g ≤ 255)
    (hb : 0 ≤ b ∧ b ≤ 255) : parseHexColor (specHexColor r g b) = some (r, g, b) := by
  have d1 := fun (n : Nat) (h : n < 16) => hexValue_specHexDigit ⟨n, h⟩
  simp only [parseHexColor, specHexColor, specHex2, List.cons_append, List.nil_append]
  rw [d1 (r.toNat / 16) (by omega), d1 (r.toNat % 16) (by omega),
    d1 (g.toNat / 16) (by omega), d1 (g.toNat % 16) (by omega),
    d1 (b.toNat / 16) (by omega), d1 (b.toNat % 16) (by omega)]
  simp only [Option.some.injEq, Prod.mk.injEq]
  omega

theorem parse_color_new (c : Int) :
    ((a_color.new c).color).bind parseHexColor = some (R_RED c, R_GREEN c, R_BLUE c) := by
  rw [color_new]
  simp only [Option.some_bind]
  apply parseHexColor_spec
  · rw [R_RED_eq]; omega
  · rw [R_GREEN_eq]; omega
  · rw [R_BLUE_eq]; omega

/-- C11: for `NA_INTEGER` the constructor extracts alpha 128, `color()` returns
`#000000`, `is_visible()` is false and `is_transparent()` is false: the NA colour
is neither visible nor transparent. -/
theorem C11_na_sentinel_results :
    NA_INTEGER = -2147483648
      ∧ (a_color.new NA_INTEGER).alpha = 128
      ∧ (a_color.new NA_INTEGER).color = some "#000000"
      ∧ (a_color.new NA_INTEGER).is_visible = 0
      ∧ (a_color.new NA_INTEGER).is_transparent = 0 := by
  decide

/-- C12: for every 32-bit integer `c`, `is_visible()` and `is_transparent()` are
never both true; exactly one of them is true for every `c` other than
`NA_INTEGER`; and `NA_INTEGER` is the only input for which both are false. -/
theorem C12_visible_transparent_exclusive (c : Int) (hc : isInt32 c) :
    ¬ ((a_color.new c).is_visible ≠ 0 ∧ (a_color.new c).is_transparent ≠ 0)
      ∧ (c ≠ NA_INTEGER →
          ((a_color.new c).is_visible ≠ 0 ∧ (a_color.new c).is_transparent = 0)
            ∨ ((a_color.new c).is_visible = 0 ∧ (a_color.new c).is_transparent ≠ 0))
      ∧ (((a_color.new c).is_visible = 0 ∧ (a_color.new c).is_transparent = 0)
          ↔ c = NA_INTEGER) := by
  have _ := hc
  have hna : R_ALPHA NA_INTEGER ≠ 0 := by decide
  by_cases h2 : R_ALPHA c = 0
  · have h1 : c ≠ NA_INTEGER := fun h => hna (h ▸ h2)
    simp [a_color.is_visible, a_color.is_transparent, a_color.new, h1, h2]
  · by_cases h1 : c = NA_INTEGER
    · subst h1
      simp [a_color.is_visible, a_color.is_transparent, a_color.new, h2]
    · simp [a_color.is_visible, a_color.is_transparent, a_color.new, h1, h2]

/-- C12 at `NA_INTEGER` (both false) and at the colour (16,32,48,128) (visible,
not transparent). -/
theorem C12_visible_transparent_exclusive_witness :
    (isInt32 NA_INTEGER ∧ isInt32 (-2144329712))
      ∧ ((a_color.new NA_INTEGER).is_visible = 0 ∧ (a_color.new NA_INTEGER).is_transparent = 0)
      ∧ (((a_color.new (-2144329712)).is_visible ≠ 0
            ∧ (a_color.new (-2144329712)).is_transparent = 0)
          ∨ ((a_color.new (-2144329712)).is_visible = 0
            ∧ (a_color.new (-2144329712)).is_transparent ≠ 0)) :=
  ⟨by decide,
    (C12_visible_transparent_exclusive NA_INTEGER (by decide)).2.2.mpr rfl,
    (C12_visible_transparent_exclusive (-2144329712) (by decide)).2.1 (by decide)⟩

/-- C13: `color()` is injective on the RGB channels: for every two 32-bit integers,
the two texts are equal exactly when the integers have the same low 24 bits; the
red, green and blue channels are read back from the text. -/
theorem C13_color_injective_on_rgb (c1 c2 : Int) (h1 : isInt32 c1) (h2 : isInt32 c2) :
    ((a_color.new c1).color = (a_color.new c2).color
        ↔ int_and c1 16777215 = int_and c2 16777215)
      ∧ ((a_color.new c1).color).bind parseHexColor
          = some (int_and c1 255, int_and (int_shr c1 8) 255, int_and (int_shr c1 16) 255) := by
  have _ := h1
  have _ := h2
  refine ⟨⟨?_, ?_⟩, parse_color_new c1⟩
  · intro h
    have p1 := parse_color_new c1
    have p2 := parse_color_new c2
    rw [h, p2] at p1
    simp only [Option.some.injEq, Prod.mk.injEq] at p1
    obtain ⟨e1, e2, e3⟩ := p1
    rw [R_RED_eq, R_RED_eq] at e1
    rw [R_GREEN_eq, R_GREEN_eq] at e2
    rw [R_BLUE_eq, R_BLUE_eq] at e3
    rw [int_and_mask24, int_and_mask24]
    omega
  · intro h
    rw [int_and_mask24, int_and_mask24] at h
    rw [color_new, color_new, R_RED_eq, R_RED_eq, R_GREEN_eq, R_GREEN_eq, R_BLUE_eq, R_BLUE_eq]
    have e1 : c1 % 256 = c2 % 256 := by omega
    have e2 : c1 / 256 % 256 = c2 / 256 % 256 := by omega
    have e3 : c1 / 65536 % 256 = c2 / 65536 % 256 := by omega
    rw [e1, e2, e3]

/-- C13 at (16,32,48,128) against (16,32,49,128): the texts differ, and so do the
low 24 bits. -/
theorem C13_color_injective_on_rgb_witness :
    (isInt32 (-2144329712) ∧ isInt32 (-2144264176))
      ∧ (a_color.new (-2144329712)).color ≠ (a_color.new (-2144264176)).color
      ∧ ((a_color.new (-2144329712)).color).bind parseHexColor = some (16, 32, 48) :=
  ⟨by decide,
    fun h => absurd
      ((C13_color_injective_on_rgb (-2144329712) (-2144264176) (by decide) (by decide)).1.mp h)
      (by decide),
    (C13_color_injective_on_rgb (-2144329712) (-2144264176) (by decide) (by decide)).2.trans
      (by decide)⟩

/-- C14, as stated, fails: under a locale whose decimal point is `,` alpha 1 gives
`0,0039`, not `0.0039`, and alpha 127 and 128 give `0,5`, not `0.5`. -/
theorem C14_counterexample :
    (isInt32 (R_RGBA 0 0 0 1) ∧ R_ALPHA (R_RGBA 0 0 0 1) = 1
        ∧ (a_color.new (R_RGBA 0 0 0 1)).opacity ',' = "0,0039"
        ∧ (a_color.new (R_RGBA 0 0 0 1)).opacity ',' ≠ "0.0039")
      ∧ (isInt32 (R_RGBA 0 0 0 127) ∧ R_ALPHA (R_RGBA 0 0 0 127) = 127
        ∧ (a_color.new (R_RGBA 0 0 0 127)).opacity ',' = "0,5"
        ∧ (a_color.new (R_RGBA 0 0 0 127)).opacity ',' ≠ "0.5")
      ∧ (isInt32 (R_RGBA 16 32 48 128) ∧ R_ALPHA (R_RGBA 16 32 48 128) = 128
        ∧ (a_color.new (R_RGBA 16 32 48 128)).opacity ',' = "0,5"
        ∧ (a_color.new (R_RGBA 16 32 48 128)).opacity ',' ≠ "0.5") := by
  decide

/-- C14, amended: for every 32-bit integer `c` and whatever the decimal point `dp`
of the locale of the stream, `opacity()` is `0` exactly when the alpha channel is
0, that is exactly when `is_transparent()` is true (alpha 1 gives `0`, `dp`, `0039`,
not `0`); elsewhere it is lossy: alpha 254 and 255 both give `1`, alpha 127 and 128
both give `0`, `dp`, `5`, so `opacity()` returning `1` does not imply alpha 255.
When the decimal point is `.` these texts are `0.0039` and `0.5`. -/
theorem C14_opacity_zero_iff_lossy_elsewhere (c : Int) (hc : isInt32 c) (dp : Char) :
    ((a_color.new c).opacity dp = "0" ↔ R_ALPHA c = 0)
      ∧ ((a_color.new c).opacity dp = "0" ↔ (a_color.new c).is_transparent ≠ 0)
      ∧ (R_ALPHA c = 1 →
          (a_color.new c).opacity dp = String.mk ['0', dp, '0', '0', '3', '9']
            ∧ (a_color.new c).opacity dp ≠ "0")
      ∧ (R_ALPHA c = 254 → (a_color.new c).opacity dp = "1")
      ∧ (R_ALPHA c = 255 → (a_color.new c).opacity dp = "1")
      ∧ (R_ALPHA c = 127 → (a_color.new c).opacity dp = String.mk ['0', dp, '5'])
      ∧ (R_ALPHA c = 128 → (a_color.new c).opacity dp = String.mk ['0', dp, '5'])
      ∧ (dp = '.' →
          (R_ALPHA c = 1 → (a_color.new c).opacity dp = "0.0039")
            ∧ (R_ALPHA c = 127 → (a_color.new c).opacity dp = "0.5")
            ∧ (R_ALPHA c = 128 → (a_color.new c).opacity dp = "0.5"))
      ∧ (∃ c2 : Int, isInt32 c2 ∧ (a_color.new c2).opacity dp = "1" ∧ R_ALPHA c2 ≠ 255) := by
  have _ := hc
  have hr := R_ALPHA_range c
  have hz : (a_color.new c).opacity dp = "0" ↔ R_ALPHA c = 0 :=
    opacity_zero_byte dp (R_ALPHA c) hr.1 hr.2
  have hv : ∀ (d : Char) (n : Int), R_ALPHA c = n →
      (a_color.new c).opacity d = fmtG2 d (int_div_double n 255) := by
    intro d n h
    simp only [a_color.opacity, a_color.new]
    rw [h]
  refine ⟨hz, ?_, ?_, ?_, ?_, ?_, ?_, ?_, ?_⟩
  · rw [hz]
    by_cases h : R_ALPHA c = 0 <;> simp [a_color.is_transparent, a_color.new, h]
  · intro h
    refine ⟨(hv dp 1 h).trans (opacity_one dp), ?_⟩
    intro h0
    have := hz.mp h0
    omega
  · intro h
    exact (hv dp 254 h).trans (opacity_254 dp)
  · intro h
    exact (hv dp 255 h).trans (opacity_255 dp)
  · intro h
    exact (hv dp 127 h).trans (opacity_127 dp)
  · intro h
    exact (hv dp 128 h).trans (opacity_128 dp)
  · intro hdp
    subst hdp
    exact ⟨fun h => (hv '.' 1 h).trans (opacity_one '.'),
      fun h => (hv '.' 127 h).trans (opacity_127 '.'),
      fun h => (hv '.' 128 h).trans (opacity_128 '.')⟩
  · refine ⟨R_RGBA 0 0 0 254, by decide, ?_, by decide⟩
    exact (show (a_color.new (R_RGBA 0 0 0 254)).opacity dp
        = fmtG2 dp (int_div_double 254 255) from rfl).trans (opacity_254 dp)

/-- C14, amended, at the colours (0,0,0,1) and (0,0,0,254), the `int`s 16777216 and
-33554432, under the decimal points `,` and `.`. -/
theorem C14_opacity_zero_iff_lossy_elsewhere_witness :
    (isInt32 16777216 ∧ isInt32 (-33554432))
      ∧ (a_color.new 16777216).opacity ',' = "0,0039"
      ∧ (a_color.new 16777216).opacity '.' = "0.0039"
      ∧ (a_color.new 16777216).opacity ',' ≠ "0"
      ∧ (a_color.new (-33554432)).opacity ',' = "1" :=
  ⟨by decide,
    ((C14_opacity_zero_iff_lossy_elsewhere 16777216 (by decide) ',').2.2.1 (by decide)).1,
    ((C14_opacity_zero_iff_lossy_elsewhere 16777216 (by decide) '.').2.2.2.2.2.2.2.1 rfl).1
      (by decide),
    ((C14_opacity_zero_iff_lossy_elsewhere 16777216 (by decide) ',').2.2.1 (by decide)).2,
    (C14_opacity_zero_iff_lossy_elsewhere (-33554432) (by decide) ',').2.2.2.1 (by decide)⟩

end AColor
